import Mathlib

/-!
Shallow embedding of the scoped-focusgroup polyfill (src/src/index.ts).

Conventions of the embedding:
* Elements are identified by natural-number ids; the attribute state of the
  document that the engine mutates (the tabindex attribute) is a function
  `Nat → Option String` (`none` = attribute absent).
* External collaborators (spec section 6) are passed as parameters: the
  focusability predicate is a per-node boolean field of the document tree,
  the geometry oracle is `rects : Nat → Rect` with rational coordinates,
  the computed text direction / writing mode are boolean parameters, and
  WeakRef liveness is an oracle `alive : Nat → Bool`.
* The focus-transfer primitive is modelled as the `Option Nat` second
  component returned by the handlers (the id the engine asked the platform
  to focus); the engine does not observe its effect synchronously.
* JavaScript numbers used for indices are modelled as `Int` (all index
  arithmetic in the source is exact small-integer arithmetic); geometry
  values are modelled as `Rat`.
-/

namespace SFP

/-- Attribute state of the document: tabindex value per element id. -/
def Tabs : Type := Nat → Option String

/-- Snapshot store, mirroring the originalAttributes WeakMap (tabindex part):
`none` = no snapshot entry, `some v` = snapshotted original value `v`. -/
def Snaps : Type := Nat → Option (Option String)

/-- Pointwise update of an attribute map, mirroring setAttribute / removeAttribute. -/
def setAttr (t : Tabs) (id : Nat) (v : Option String) : Tabs :=
  fun j => if j = id then v else t j

/-- JavaScript Array.prototype.indexOf: index of the first occurrence, -1 if absent. -/
def jsIndexOf : List Nat → Nat → Int
  | [], _ => -1
  | a :: l, x =>
    if a = x then 0
    else
      let r := jsIndexOf l x
      if r = -1 then -1 else r + 1

/-- JavaScript array indexing with an Int index: out-of-bounds (including
negative) yields undefined, modelled as `none`. -/
def listGetI {α : Type} (l : List α) (i : Int) : Option α :=
  if i < 0 then none else l.get? i.toNat

/-- Parsed focusgroup token set (GroupState.tokens in the source). The
behavior field is a raw string because the source stores the raw first
token unvalidated (`(tokens[0] as BehaviorToken) || 'unknown'`). -/
structure Tokens where
  behavior : String
  wrap : Bool
  inline : Bool
  block : Bool
  memory : Bool
  grid : Bool
  shadowInclusive : Bool
  rowWrap : Bool
  colWrap : Bool
  rowFlow : Bool
  colFlow : Bool
deriving Repr, DecidableEq

/-- Tokenizer loop: raw.split(/\s+/).filter(Boolean) returns exactly the
maximal whitespace-free runs of the string, in order; this computes them
by a single left-to-right pass over the characters (acc holds the current
run, reversed). -/
def wordsAux : List Char → List Char → List String
  | [], acc => if acc.isEmpty then [] else [String.mk acc.reverse]
  | c :: cs, acc =>
    if c.isWhitespace then
      (if acc.isEmpty then [] else [String.mk acc.reverse]) ++ wordsAux cs []
    else wordsAux cs (c :: acc)

/-- Whitespace token split used by rebuild (line 293). -/
def splitTokens (raw : String) : List String :=
  wordsAux raw.toList []

/-- Token parsing as performed at the top of rebuild (lines 293-304):
split the raw attribute on whitespace, drop empty pieces (filter(Boolean)),
take the first token as behavior (or 'unknown' when there is none), and
presence-test the modifier tokens. -/
def parseTokens (raw : String) : Tokens :=
  let toks := splitTokens raw
  { behavior := (toks.head?).getD "unknown"
    wrap := toks.contains "wrap"
    inline := toks.contains "inline"
    block := toks.contains "block"
    memory := ¬ (toks.contains "no-memory")
    grid := toks.contains "grid"
    shadowInclusive := toks.contains "shadow-inclusive"
    rowWrap := toks.contains "row-wrap"
    colWrap := toks.contains "col-wrap"
    rowFlow := toks.contains "row-flow"
    colFlow := toks.contains "col-flow" }

/-- Bounding box supplied by the geometry oracle (getBoundingClientRect);
only top, left and height are consulted by the source. -/
structure Rect where
  top : Rat
  left : Rat
  height : Rat
deriving Repr, DecidableEq

/-- Per-group engine state (GroupState in the source). gridPos is the pair
(gridPosition.row, gridPosition.col). memory holds the WeakRef target id. -/
structure GState where
  tokens : Tokens
  items : List Nat
  gridItems : List (List Nat)
  activeIndex : Int
  gridPos : Int × Int
  memory : Option Nat
deriving Repr, DecidableEq

/-- Engine state for one group: group record plus the document attribute
state and the snapshot store it manages. -/
structure Eng where
  g : GState
  tabs : Tabs
  snaps : Snaps

/-- Document tree node. `fg` is the focusgroup attribute (`none` = absent);
`focusable` is the value of the externally supplied focusability predicate
at this node (isFocusable consults layout and style oracles, so per spec
section 6 it is external input). Shadow roots are not modelled: the
embedding covers light-DOM documents, on which the shadow-inclusive branch
of discoverItems is vacuous. -/
inductive DNode : Type where
  | mk (id : Nat) (fg : Option String) (focusable : Bool) (children : List DNode)

def DNode.id : DNode → Nat
  | .mk i _ _ _ => i

def DNode.fg : DNode → Option String
  | .mk _ f _ _ => f

def DNode.focusable : DNode → Bool
  | .mk _ _ b _ => b

def DNode.children : DNode → List DNode
  | .mk _ _ _ c => c

/-- NodeFilter result used by the discovery walker. -/
inductive FilterRes : Type where
  | accept
  | skip
  | reject
deriving Repr, DecidableEq

/-- Filter body of the TreeWalker in discoverItems (lines 339-352), for a
light-DOM node. `anc` is the list of strict ancestors of the node below the
walk root (nearest first): both findGroupForElement(node.parentElement,
root) and findAncestorWithAttr(node, 'focusgroup', 'none', root) walk
exactly this chain, stopping at (and excluding) the root. `registered`
models the groups WeakMap (groups.has). -/
def filterNode (registered : Nat → Bool) (anc : List DNode) (n : DNode) : FilterRes :=
  if (anc.find? (fun a => registered a.id)).isSome then .reject
  else if (anc.find? (fun a => a.fg = some "none")).isSome then .reject
  else if n.focusable then .accept
  else .skip

mutual

/-- TreeWalker.nextNode visit of one node: an accepted node is emitted and
the walk continues into its children; a skipped node is not emitted but its
children are walked; a rejected node's whole subtree is pruned. -/
def walkNode (registered : Nat → Bool) (anc : List DNode) : DNode → List Nat
  | .mk i f b c =>
    match filterNode registered anc (.mk i f b c) with
    | .accept => i :: walkChildren registered ((DNode.mk i f b c) :: anc) c
    | .skip => walkChildren registered ((DNode.mk i f b c) :: anc) c
    | .reject => []

/-- Left-to-right walk of a sibling list. -/
def walkChildren (registered : Nat → Bool) (anc : List DNode) : List DNode → List Nat
  | [] => []
  | c :: cs => walkNode registered anc c ++ walkChildren registered anc cs

end

/-- discoverItems (lines 336-359) on a light-DOM tree: the walker starts
below the root (the root itself is only ever FILTER_SKIPped by the
node === root guard and is never emitted). -/
def discoverItems (registered : Nat → Bool) (root : DNode) : List Nat :=
  walkChildren registered [] root.children

/-- Loop body of applyRovingTabindex: forEach((item, index) => setAttribute
tabindex (index === activeIndex ? '0' : '-1')). The counter argument is the
running index. -/
def rovingLoop (active : Int) : Nat → List Nat → Tabs → Tabs
  | _, [], t => t
  | i, id :: rest, t =>
    rovingLoop active (i + 1) rest
      (setAttr t id (some (if (i : Int) = active then "0" else "-1")))

/-- applyRovingTabindex (lines 485-489). -/
def applyRovingTabindex (g : GState) (t : Tabs) : Tabs :=
  rovingLoop g.activeIndex 0 g.items t

/-- Navigation keys recognised by the engine; all other key identifiers are
filtered out by onGlobalKeyDown before navigation runs. -/
inductive Key : Type where
  | up
  | down
  | left
  | right
  | home
  | end'
deriving Repr, DecidableEq

/-- Test mirroring key.startsWith('Arrow'). -/
def Key.isArrow : Key → Bool
  | .up => true
  | .down => true
  | .left => true
  | .right => true
  | _ => false

/-- focusItemByIndex (lines 475-481): guard, then set activeIndex, re-apply
the roving tabindex and request platform focus on items[index]. -/
def focusItemByIndex (i : Int) (e : Eng) : Eng × Option Nat :=
  if i = e.g.activeIndex ∨ i < 0 ∨ (e.g.items.length : Int) ≤ i then (e, none)
  else
    let g' := { e.g with activeIndex := i }
    ({ e with g := g', tabs := applyRovingTabindex g' e.tabs },
      listGetI e.g.items i)

/-- Horizontal flag of the navigateLinear switch (lines 406-413). -/
def keyHorizontal : Key → Bool
  | .right => true
  | .left => true
  | _ => false

/-- Forward flag of the navigateLinear switch (lines 406-413). -/
def keyForward (isRTL isVertical : Bool) : Key → Bool
  | .right => !isRTL
  | .left => isRTL
  | .down => !isVertical
  | .up => isVertical
  | _ => false

/-- Axis-gating test of navigateLinear (line 416): an arrow key on the
wrong axis is ignored entirely. -/
def linearGate (tk : Tokens) (k : Key) : Bool :=
  k.isArrow &&
    ((tk.inline && !tk.block && !keyHorizontal k) ||
      (tk.block && !tk.inline && keyHorizontal k))

/-- Raw next index before wrap/clamp (lines 406-417): Home/End assign it
directly, arrows move one step in the resolved direction. -/
def linearRaw (isRTL isVertical : Bool) (k : Key) (active lastIndex : Int) : Int :=
  match k with
  | .home => 0
  | .end' => lastIndex
  | _ => active + (if keyForward isRTL isVertical k then 1 else -1)

/-- Wrap or clamp of the computed index (lines 420-425). -/
def linearClamp (wrap : Bool) (lastIndex idx : Int) : Int :=
  if wrap then
    let a := if idx < 0 then lastIndex else idx
    if lastIndex < a then 0 else a
  else max 0 (min idx lastIndex)

/-- navigateLinear (lines 392-427). isRTL and isVertical come from the
computed-style oracle. -/
def navigateLinear (isRTL isVertical : Bool) (k : Key) (e : Eng) : Eng × Option Nat :=
  if e.g.activeIndex = -1 then (e, none)
  else if linearGate e.g.tokens k then (e, none)
  else
    focusItemByIndex
      (linearClamp e.g.tokens.wrap ((e.g.items.length : Int) - 1)
        (linearRaw isRTL isVertical k e.g.activeIndex ((e.g.items.length : Int) - 1))) e

/-- Length of gridItems[i] through the optional-chaining pattern
(gridItems[row]?.length ?? 0) used at line 447. -/
def rowLen (rows : List (List Nat)) (i : Int) : Int :=
  match listGetI rows i with
  | some r => (r.length : Int)
  | none => 0

/-- Expression gridItems[max 0 row]?.length - 1 || 0 at line 450: a missing
row gives NaN which the || turns into 0; otherwise the numeric value
length - 1 stands (the || only replaces the falsy 0 by 0 itself). -/
def flowTargetCol (rows : List (List Nat)) (row : Int) : Int :=
  match listGetI rows (max 0 row) with
  | some r => (r.length : Int) - 1
  | none => 0

/-- Final row clamp of navigateGrid (line 465). -/
def clampRow (rows : List (List Nat)) (r : Int) : Int :=
  max 0 (min r ((rows.length : Int) - 1))

/-- Final column clamp of navigateGrid (line 466), relative to the already
clamped row. -/
def clampCol (rows : List (List Nat)) (r4 c : Int) : Int :=
  max 0 (min c ((((listGetI rows r4).getD []).length : Int) - 1))

/-- Cell lookup gridItems[row][col] (line 468). -/
def gridLookup (rows : List (List Nat)) (r c : Int) : Option Nat :=
  (listGetI rows r).bind (fun rw => listGetI rw c)

/-- Key switch of navigateGrid (lines 438-445); the End case reads the
current row's length without optional chaining (a missing row, impossible
for an in-range gridPosition, is modelled as the empty row). -/
def gridKeyStep (k : Key) (rows : List (List Nat)) (row0 col0 : Int) : Int × Int :=
  match k with
  | .up => (row0 - 1, col0)
  | .down => (row0 + 1, col0)
  | .left => (row0, col0 - 1)
  | .right => (row0, col0 + 1)
  | .home => (row0, 0)
  | .end' => (row0, (((listGetI rows row0).getD []).length : Int) - 1)

/-- Column overflow resolution of navigateGrid (lines 447-457), evaluated
before row overflow: flow first, then wrap, then clamp. -/
def gridColResolve (colFlow colWrap : Bool) (rows : List (List Nat)) (row1 col1 : Int) :
    Int × Int :=
  if col1 < 0 then
    if colFlow then (row1 - 1, flowTargetCol rows (row1 - 1))
    else if colWrap then (row1, rowLen rows row1 - 1)
    else (row1, 0)
  else if rowLen rows row1 - 1 < col1 then
    if colFlow then (row1 + 1, 0)
    else if colWrap then (row1, 0)
    else (row1, rowLen rows row1 - 1)
  else (row1, col1)

/-- Row overflow resolution of navigateGrid (lines 459-463). -/
def gridRowResolve (rowFlow rowWrap : Bool) (maxRow row2 : Int) : Int :=
  if row2 < 0 then (if rowFlow || rowWrap then maxRow else 0)
  else if maxRow < row2 then (if rowFlow || rowWrap then 0 else maxRow)
  else row2

/-- Commit phase of navigateGrid (lines 468-472): look up the clamped
cell, and when its element is found in the item list, store the new grid
position and move focus; otherwise do nothing (indexOf of a missing cell
is -1). -/
def gridNewIndex (items : List Nat) (cell : Option Nat) : Int :=
  match cell with
  | some el => jsIndexOf items el
  | none => -1

def gridCommit (row4 col3 : Int) (e : Eng) : Eng × Option Nat :=
  if -1 < gridNewIndex e.g.items (gridLookup e.g.gridItems row4 col3) then
    focusItemByIndex (gridNewIndex e.g.items (gridLookup e.g.gridItems row4 col3))
      { e with g := { e.g with gridPos := (row4, col3) } }
  else (e, none)

/-- navigateGrid (lines 429-473), assembled from the phases above; the
group-wide wrap modifier enables both row-wrap and col-wrap (line 434). -/
def navigateGrid (k : Key) (e : Eng) : Eng × Option Nat :=
  if e.g.gridPos.1 = -1 ∨ e.g.gridPos.2 = -1 then (e, none)
  else
    let rc1 := gridKeyStep k e.g.gridItems e.g.gridPos.1 e.g.gridPos.2
    let rc2 := gridColResolve e.g.tokens.colFlow (e.g.tokens.colWrap || e.g.tokens.wrap)
      e.g.gridItems rc1.1 rc1.2
    let row3 := gridRowResolve e.g.tokens.rowFlow (e.g.tokens.rowWrap || e.g.tokens.wrap)
      ((e.g.gridItems.length : Int) - 1) rc2.1
    gridCommit (clampRow e.g.gridItems row3)
      (clampCol e.g.gridItems (clampRow e.g.gridItems row3) rc2.2) e

/-- WeakRef.deref through the garbage-collection oracle. -/
def derefMemory (alive : Nat → Bool) (m : Option Nat) : Option Nat :=
  m.bind (fun id => if alive id then some id else none)

/-- Item-handling tail of onGlobalFocusIn (lines 220-227): when the target
is an item, adopt it as the active index (re-applying the roving tabindex
only when it changed) and record it in memory; otherwise do nothing. -/
def focusInFallThrough (target : Nat) (e : Eng) : Eng × Option Nat :=
  if -1 < jsIndexOf e.g.items target then
    let e1 :=
      if e.g.activeIndex ≠ jsIndexOf e.g.items target then
        let g' := { e.g with activeIndex := jsIndexOf e.g.items target }
        { e with g := g', tabs := applyRovingTabindex g' e.tabs }
      else e
    ({ e1 with g := { e1.g with memory := some target } }, none)
  else (e, none)

/-- onGlobalFocusIn (lines 199-228) for a focus-in whose target lies inside
this group's container. The second component is the focus request issued to
the platform (memoryEl.focus()), if any. -/
def onFocusIn (target : Nat) (isTabbing : Bool) (alive : Nat → Bool) (e : Eng) :
    Eng × Option Nat :=
  if isTabbing then
    match derefMemory alive e.g.memory with
    | some m =>
      if e.g.tokens.memory ∧ m ∈ e.g.items ∧ target ≠ m then (e, some m)
      else focusInFallThrough target e
    | none => focusInFallThrough target e
  else focusInFallThrough target e

/-- onGlobalKeyDown (lines 171-197) after target resolution: bail out on an
empty item list or a text-editing target, then dispatch on grid mode. -/
def onKeyDown (k : Key) (isRTL isVertical isText : Bool) (e : Eng) : Eng × Option Nat :=
  if e.g.items.length = 0 then (e, none)
  else if isText then (e, none)
  else if e.g.tokens.grid then navigateGrid k e
  else navigateLinear isRTL isVertical k e

/-- focusItem of the programmatic GroupAPI handle (lines 567-570). -/
def apiFocusItemFn (id : Nat) (e : Eng) : Eng × Option Nat :=
  if -1 < jsIndexOf e.g.items id then focusItemByIndex (jsIndexOf e.g.items id) e
  else (e, none)

/-- saveOriginalAttributes (lines 510-517), tabindex component: snapshot
only when no entry exists yet. -/
def saveOriginalAttributes (id : Nat) (t : Tabs) (sn : Snaps) : Snaps :=
  match sn id with
  | some _ => sn
  | none => fun j => if j = id then some (t id) else sn j

/-- restoreOriginalAttributes (lines 519-532), tabindex component: replay
the snapshot (removing the attribute for an originally absent value) and
drop the entry; no-op for an unmanaged element. -/
def restoreOriginalAttributes (id : Nat) (p : Tabs × Snaps) : Tabs × Snaps :=
  match p.2 id with
  | none => p
  | some v => (setAttr p.1 id v, fun j => if j = id then none else p.2 j)

def restoreAll (ids : List Nat) (p : Tabs × Snaps) : Tabs × Snaps :=
  ids.foldl (fun acc id => restoreOriginalAttributes id acc) p

def saveAll (ids : List Nat) (t : Tabs) (sn : Snaps) : Snaps :=
  ids.foldl (fun acc id => saveOriginalAttributes id t acc) sn

/-- Stable comparator used by buildGrid's sort: a.rect.top - b.rect.top ||
a.rect.left - b.rect.left, as a boolean "comes no later than" relation. -/
def jsRectLe (a b : Nat × Rect) : Bool :=
  decide (a.2.top < b.2.top) ||
    (decide (a.2.top = b.2.top) && decide (a.2.left ≤ b.2.left))

/-- Row-clustering loop of buildGrid (lines 367-377): prev is the rect of
itemRects[i-1], cur the row under construction, acc the finished rows. -/
def buildRowsAux (prev : Rect) (cur : List Nat) (acc : List (List Nat)) :
    List (Nat × Rect) → List (List Nat)
  | [] => acc ++ [cur]
  | (el, r) :: rest =>
    if prev.height / 2 < |r.top - prev.top| then
      buildRowsAux r [el] (acc ++ [cur]) rest
    else
      buildRowsAux r (cur ++ [el]) acc rest

/-- Geometry clustering of buildGrid: sort by (top, left) with a stable
sort, then split rows where the vertical gap exceeds half the previous
item's height. -/
def buildGridRows (items : List Nat) (rects : Nat → Rect) : List (List Nat) :=
  match (items.map (fun it => (it, rects it))).mergeSort jsRectLe with
  | [] => []
  | (el, r) :: rest => buildRowsAux r [el] [] rest

/-- Search loop of buildGrid lines 382-385: first row containing the active
element, with the column given by indexOf; (-1,-1) when absent. -/
def findPosAux (a : Nat) (r : Nat) : List (List Nat) → Int × Int
  | [] => (-1, -1)
  | row :: rest =>
    if -1 < jsIndexOf row a then ((r : Int), jsIndexOf row a)
    else findPosAux a (r + 1) rest

/-- buildGrid (lines 361-388): on an empty item list only gridItems is
cleared (gridPosition keeps its previous value); otherwise rows are rebuilt
and gridPosition is recovered from the new activeIndex. -/
def buildGrid (rects : Nat → Rect) (g : GState) : GState :=
  if g.items.length = 0 then { g with gridItems := [] }
  else
    let rows := buildGridRows g.items rects
    let p : Int × Int :=
      match (if -1 < g.activeIndex then listGetI g.items g.activeIndex else none) with
      | some activeEl => findPosAux activeEl 0 rows
      | none => (-1, -1)
    { g with gridItems := rows, gridPos := p }

/-- Fallback selection of the new activeIndex in rebuild (lines 320-325)
when the previously active element is gone: remembered item if memory is
enabled and it survived, else first item, else -1. -/
def rebuildFallback (tk : Tokens) (alive : Nat → Bool) (mem : Option Nat)
    (items : List Nat) : Int :=
  match derefMemory alive mem with
  | some m =>
    if tk.memory ∧ m ∈ items then jsIndexOf items m
    else if items.length = 0 then -1 else 0
  | none => if items.length = 0 then -1 else 0

/-- Previously active element (line 311): state.activeIndex > -1 ?
state.items[state.activeIndex] : null. -/
def rebuildOldActive (e : Eng) : Option Nat :=
  if -1 < e.g.activeIndex then listGetI e.g.items e.g.activeIndex else none

/-- New activeIndex selection of rebuild (lines 317-326): keep the old
active element when it survived, else fall back to memory / first item. -/
def rebuildActiveIndex (tk : Tokens) (alive : Nat → Bool) (mem : Option Nat)
    (oldActive : Option Nat) (items : List Nat) : Int :=
  match oldActive with
  | some a =>
    if a ∈ items then jsIndexOf items a
    else rebuildFallback tk alive mem items
  | none => rebuildFallback tk alive mem items

/-- Group record produced by rebuild before the optional grid pass:
tokens, items and activeIndex are recomputed, the rest is untouched. -/
def rebuildG1 (tk : Tokens) (discovered : List Nat) (alive : Nat → Bool) (e : Eng) :
    GState :=
  { e.g with
    tokens := tk
    items := discovered
    activeIndex := rebuildActiveIndex tk alive e.g.memory (rebuildOldActive e) discovered }

/-- Group record produced by rebuild (line 328): buildGrid runs only in
grid mode. -/
def rebuildGState (tk : Tokens) (discovered : List Nat) (rects : Nat → Rect)
    (alive : Nat → Bool) (e : Eng) : GState :=
  if tk.grid then buildGrid rects (rebuildG1 tk discovered alive e)
  else rebuildG1 tk discovered alive e

/-- Body of rebuild for a non-none behavior (lines 311-333): restore the
old items' attributes, adopt the discovery result, snapshot the new items,
select the new activeIndex, optionally rebuild the grid, and re-apply the
roving tabindex. -/
def rebuildCore (tk : Tokens) (discovered : List Nat) (rects : Nat → Rect)
    (alive : Nat → Bool) (e : Eng) : Eng :=
  { g := rebuildGState tk discovered rects alive e,
    tabs := applyRovingTabindex (rebuildGState tk discovered rects alive e)
      (restoreAll e.g.items (e.tabs, e.snaps)).1,
    snaps := saveAll discovered (restoreAll e.g.items (e.tabs, e.snaps)).1
      (restoreAll e.g.items (e.tabs, e.snaps)).2 }

/-- rebuild (lines 289-334). The item discovery result is passed in as
`discovered` (the document may have changed arbitrarily since the last
rebuild; discoverItems models the discovery itself). The behavior-none
early return (lines 306-309) clears the item list and skips everything
else, including the restoration of the old items' attributes. Role
management (autoRoles) is disabled in this model, as in the default
installation. -/
def rebuild (raw : String) (discovered : List Nat) (rects : Nat → Rect)
    (alive : Nat → Bool) (e : Eng) : Eng :=
  if (parseTokens raw).behavior = "none" then
    { e with g := { e.g with tokens := parseTokens raw, items := [] } }
  else
    rebuildCore (parseTokens raw) discovered rects alive e

/-- unregister (lines 271-278), for a group whose container has id
`container`: restore every current item, then the container itself, and
drop the group record (modelled by clearing the derived fields). -/
def unregister (container : Nat) (e : Eng) : Eng :=
  let ts := restoreAll e.g.items (e.tabs, e.snaps)
  let ts2 := restoreOriginalAttributes container ts
  { g := { e.g with items := [] }, tabs := ts2.1, snaps := ts2.2 }

/-- External events driving one group of the engine: coalesced rebuilds,
key navigation, focus-in events and the programmatic handle operations. -/
inductive Op : Type where
  | rebuildOp (raw : String) (discovered : List Nat) (rects : Nat → Rect) (alive : Nat → Bool)
  | keydown (k : Key) (isRTL isVertical isText : Bool)
  | focusInEv (target : Nat) (isTabbing : Bool) (alive : Nat → Bool)
  | apiFocusItem (id : Nat)
  | apiFocusNext (isRTL isVertical : Bool)
  | apiFocusPrev (isRTL isVertical : Bool)
  | apiFocusFirst (isRTL isVertical : Bool)
  | apiFocusLast (isRTL isVertical : Bool)

def step (o : Op) (e : Eng) : Eng :=
  match o with
  | .rebuildOp raw d rects alive => rebuild raw d rects alive e
  | .keydown k r v t => (onKeyDown k r v t e).1
  | .focusInEv t tb alive => (onFocusIn t tb alive e).1
  | .apiFocusItem id => (apiFocusItemFn id e).1
  | .apiFocusNext r v => (navigateLinear r v .right e).1
  | .apiFocusPrev r v => (navigateLinear r v .left e).1
  | .apiFocusFirst r v => (navigateLinear r v .home e).1
  | .apiFocusLast r v => (navigateLinear r v .end' e).1

def runOps (ops : List Op) (e : Eng) : Eng :=
  ops.foldl (fun a o => step o a) e

/-- Scheduler state: the per-group debounce flag, the number of queued
requestAnimationFrame callbacks, and a counter of executed rebuilds. -/
structure Sched where
  rebuildScheduled : Bool
  pending : Nat
  executed : Nat
deriving Repr, DecidableEq

def schedInit : Sched := ⟨false, 0, 0⟩

/-- scheduleRebuild (lines 280-287): bail out when already scheduled, else
set the flag and queue one callback. -/
def scheduleRebuild (s : Sched) : Sched :=
  if s.rebuildScheduled then s
  else { s with rebuildScheduled := true, pending := s.pending + 1 }

/-- Execution of one queued requestAnimationFrame callback: run the rebuild
and clear the flag; no-op when nothing is queued. -/
def rafTick (s : Sched) : Sched :=
  match s.pending with
  | 0 => s
  | n + 1 => { rebuildScheduled := false, pending := n, executed := s.executed + 1 }

/-- Scheduler-level events: a dirty signal from the mutation observer,
register() on an already-known container (line 262), and a frame tick. -/
inductive SchedOp : Type where
  | dirty
  | registerKnown
  | tick

def schedStep (o : SchedOp) (s : Sched) : Sched :=
  match o with
  | .dirty => scheduleRebuild s
  | .registerKnown => scheduleRebuild s
  | .tick => rafTick s

def schedRun (ops : List SchedOp) : Sched :=
  ops.foldl (fun s o => schedStep o s) schedInit

/-! Shared concrete data used by the concrete evaluations and witnesses. -/

/-- Document state with no tabindex attribute anywhere. -/
def tabsEmpty : Tabs := fun _ => none

/-- Empty snapshot store. -/
def snapsEmpty : Snaps := fun _ => none

/-- Freshly registered group before its first rebuild (register only sets
the debounce flag; items, activeIndex and so on are still unset, which the
first rebuild observes exactly like this default record). -/
def engInit : Eng :=
  { g := { tokens := parseTokens "", items := [], gridItems := [],
           activeIndex := -1, gridPos := (-1, -1), memory := none },
    tabs := tabsEmpty, snaps := snapsEmpty }

/-- Degenerate geometry oracle (all items at the same spot). -/
def rectsConst : Nat → Rect := fun _ => ⟨0, 0, 10⟩

/-- Garbage-collection oracle under which every WeakRef resolves. -/
def aliveAll : Nat → Bool := fun _ => true

/-! Basic lemmas about the JavaScript-style list primitives. -/

theorem jsIndexOf_not_mem (l : List Nat) (x : Nat) (h : x ∉ l) : jsIndexOf l x = -1 := by
  induction l with
  | nil => rfl
  | cons a t ih =>
    have h1 : a ≠ x := fun e => h (e ▸ List.mem_cons_self a t)
    have h2 : x ∉ t := fun m => h (List.mem_cons_of_mem a m)
    simp [jsIndexOf, h1, ih h2]

theorem jsIndexOf_get (l : List Nat) (hnd : l.Nodup) (i : Nat) (h : i < l.length) :
    jsIndexOf l l[i] = (i : Int) := by
  induction l generalizing i with
  | nil => simp at h
  | cons a t ih =>
    rw [List.nodup_cons] at hnd
    cases i with
    | zero => simp [jsIndexOf]
    | succ j =>
      have hj : j < t.length := by simpa using h
      have hget : (a :: t)[j + 1] = t[j] := by simp
      have hne : a ≠ t[j] := by
        intro e
        exact hnd.1 (e ▸ List.getElem_mem hj)
      have hj1 : (j : Int) ≠ -1 := by omega
      rw [hget]
      simp [jsIndexOf, hne, ih hnd.2 j hj, hj1]

theorem jsIndexOf_mem_spec (l : List Nat) (x : Nat) (h : x ∈ l) :
    0 ≤ jsIndexOf l x ∧ jsIndexOf l x < (l.length : Int) ∧
      listGetI l (jsIndexOf l x) = some x := by
  induction l with
  | nil => simp at h
  | cons a t ih =>
    by_cases hax : a = x
    · subst hax
      refine ⟨by simp [jsIndexOf], ?_, by simp [jsIndexOf, listGetI]⟩
      simp [jsIndexOf]
    · have hxt : x ∈ t := by
        rcases List.mem_cons.mp h with h1 | h1
        · exact absurd h1.symm hax
        · exact h1
      obtain ⟨h0, h1, h2⟩ := ih hxt
      have hne : jsIndexOf t x ≠ -1 := by omega
      have htn : (jsIndexOf t x + 1).toNat = (jsIndexOf t x).toNat + 1 := by omega
      refine ⟨?_, ?_, ?_⟩
      · simp [jsIndexOf, hax, hne]; omega
      · simp [jsIndexOf, hax, hne]; omega
      · simp only [jsIndexOf, hax, if_false, hne, ite_false]
        unfold listGetI at h2 ⊢
        rw [if_neg (by omega), htn]
        rw [if_neg (by omega)] at h2
        simpa using h2

theorem mem_of_jsIndexOf_nonneg (l : List Nat) (x : Nat) (h : -1 < jsIndexOf l x) :
    x ∈ l := by
  by_contra hx
  rw [jsIndexOf_not_mem l x hx] at h
  omega

theorem listGetI_nonneg {α : Type} (l : List α) (i : Int) (h0 : 0 ≤ i) :
    listGetI l i = l.get? i.toNat := by
  simp [listGetI, not_lt.mpr h0]

theorem listGetI_neg {α : Type} (l : List α) (i : Int) (h0 : i < 0) :
    listGetI l i = none := by
  simp [listGetI, h0]

/-! Claim C4. -/

/-- C4 (evaluation of the code at the failing input): the token parser run
by rebuild does not normalize an unrecognized first token to 'unknown'.
For the raw attribute value "banana wrap" the stored behavior is the raw
string "banana" (the TypeScript cast in `(tokens[0] as BehaviorToken) ||
'unknown'` performs no runtime validation, so only an absent first token
falls back to 'unknown'), contradicting the claim that every unrecognized
first token is stored as 'unknown'. -/
theorem c4_unrecognized_behavior_stored_raw :
    (parseTokens "banana wrap").behavior = "banana" ∧
    (parseTokens "banana wrap").behavior ≠ "unknown" ∧
    (parseTokens "").behavior = "unknown" ∧
    (parseTokens "   ").behavior = "unknown" := by
  exact ⟨rfl, by decide, rfl, rfl⟩

/-! Claim C2. -/

/-- Document exercising the opt-out rule: a toolbar group (id 0) whose
subtree holds a container with focusgroup="none" (id 1) that satisfies the
focusability predicate, which in turn holds a focusable element (id 2). -/
def docNoneFocusable : DNode :=
  .mk 0 (some "toolbar") false
    [ .mk 1 (some "none") true [ .mk 2 none true [] ] ]

/-- Same document except that the none-container is not focusable. -/
def docNonePlain : DNode :=
  .mk 0 (some "toolbar") false
    [ .mk 1 (some "none") false [ .mk 2 none true [] ] ]

/-- Registered-groups predicate for the two documents above: both elements
carrying a focusgroup attribute are registered. -/
def regNone : Nat → Bool := fun i => i = 0 || i = 1

/-- C2 (evaluation of the code at the failing input): discovery for the
enclosing group of docNoneFocusable returns [1] — the focusable container
whose behavior token is 'none' itself appears in the enclosing group's
item list (its subtree, element 2, is excluded). The claim requires the
'none' container itself to be excluded as well, even when focusable, so
the code contradicts it; the second conjunct shows that when the 'none'
container is not focusable, container and subtree are both absent as the
claim describes. -/
theorem c2_focusable_none_container_discovered :
    discoverItems regNone docNoneFocusable = [1] ∧
    discoverItems regNone docNonePlain = [] := by
  exact ⟨rfl, rfl⟩

/-! Claim C8. -/

/-- C8 (evaluation of the code at the failing input): item 5 initially has
no tabindex attribute, so its snapshotted original value is "absent".
A first rebuild (behavior toolbar) discovers it, snapshots the absent
value and sets tabindex "0" (it is the active item). After the focusgroup
attribute changes to "none", the next rebuild takes the early return that
clears the item list without restoring the old items. Teardown
(unregister) then only restores the now-empty current item list and the
container, so item 5 keeps tabindex "0" although the claim requires its
attribute to be restored to the snapshotted absent value. -/
theorem c8_teardown_misses_items_orphaned_by_none_rebuild :
    engInit.tabs 5 = none ∧
    (step (.rebuildOp "toolbar" [5] rectsConst aliveAll) engInit).snaps 5 = some none ∧
    (unregister 0 (step (.rebuildOp "none" [] rectsConst aliveAll)
      (step (.rebuildOp "toolbar" [5] rectsConst aliveAll) engInit))).tabs 5 = some "0" := by
  exact ⟨rfl, rfl, rfl⟩

/-! Claim C9. -/

/-- Scheduler invariant: at most one rebuild callback is queued, and the
debounce flag is set exactly when one is queued. -/
def schedInv (s : Sched) : Prop :=
  s.pending ≤ 1 ∧ (s.rebuildScheduled = true ↔ s.pending = 1)

theorem scheduleRebuild_inv (s : Sched) (h : schedInv s) :
    schedInv (scheduleRebuild s) := by
  obtain ⟨hp, hiff⟩ := h
  by_cases hs : s.rebuildScheduled = true
  · simpa [scheduleRebuild, hs] using ⟨hp, hiff⟩
  · have hs' : s.rebuildScheduled = false := by simpa using hs
    have hp0 : s.pending = 0 := by
      by_cases h1 : s.pending = 1
      · rw [hiff.mpr h1] at hs'
        cases hs'
      · omega
    simp [scheduleRebuild, hs', schedInv, hp0]

theorem rafTick_inv (s : Sched) (h : schedInv s) : schedInv (rafTick s) := by
  obtain ⟨hp, hiff⟩ := h
  rcases hpd : s.pending with _ | n
  · simpa [rafTick, hpd] using ⟨hp, hiff⟩
  · have hn : n = 0 := by omega
    subst hn
    simp [rafTick, hpd, schedInv]

theorem schedStep_inv (s : Sched) (o : SchedOp) (h : schedInv s) :
    schedInv (schedStep o s) := by
  cases o with
  | dirty => exact scheduleRebuild_inv s h
  | registerKnown => exact scheduleRebuild_inv s h
  | tick => exact rafTick_inv s h

theorem schedRun_inv (ops : List SchedOp) : schedInv (schedRun ops) := by
  have base : schedInv schedInit := by
    constructor
    · decide
    · decide
  have gen : ∀ (l : List SchedOp) (s : Sched), schedInv s →
      schedInv (l.foldl (fun s o => schedStep o s) s) := by
    intro l
    induction l with
    | nil => intro s hs; exact hs
    | cons o t ih =>
      intro s hs
      exact ih _ (schedStep_inv s o hs)
  exact gen ops schedInit base

/-- C9: along any sequence of dirty signals, re-registrations and frame
ticks, at most one rebuild is pending per group (the debounce flag tracks
it exactly); a dirty signal or re-registration arriving while a rebuild is
pending changes nothing; the pending rebuild then executes exactly once on
its tick, clearing the flag and the queue, after which a subsequent dirty
signal schedules exactly one new rebuild. -/
theorem c9_rebuild_coalescing :
    (∀ ops : List SchedOp, schedInv (schedRun ops)) ∧
    (∀ s : Sched, s.rebuildScheduled = true →
      schedStep .dirty s = s ∧ schedStep .registerKnown s = s) ∧
    (∀ s : Sched, schedInv s → s.rebuildScheduled = true →
      (rafTick s).executed = s.executed + 1 ∧
      (rafTick s).rebuildScheduled = false ∧
      (rafTick s).pending = 0 ∧
      (scheduleRebuild (rafTick s)).rebuildScheduled = true ∧
      (scheduleRebuild (rafTick s)).pending = 1) := by
  refine ⟨schedRun_inv, ?_, ?_⟩
  · intro s h
    exact ⟨by simp [schedStep, scheduleRebuild, h], by simp [schedStep, scheduleRebuild, h]⟩
  · intro s hinv h
    have hp1 : s.pending = 1 := hinv.2.mp h
    simp [rafTick, scheduleRebuild, hp1]

/-- Witness instantiating c9_rebuild_coalescing at concrete inputs. -/
theorem c9_rebuild_coalescing_witness :
    schedInv (schedRun [.dirty, .dirty, .tick, .dirty]) ∧
    schedStep .dirty (⟨true, 1, 0⟩ : Sched) = ⟨true, 1, 0⟩ ∧
    (rafTick (⟨true, 1, 0⟩ : Sched)).executed = 0 + 1 :=
  ⟨c9_rebuild_coalescing.1 [.dirty, .dirty, .tick, .dirty],
   (c9_rebuild_coalescing.2.1 ⟨true, 1, 0⟩ rfl).1,
   (c9_rebuild_coalescing.2.2 ⟨true, 1, 0⟩ (by constructor <;> simp) rfl).1⟩

/-! Claim C7. -/

/-- C7: on a tab-style arrival in a group with memory enabled, when the
tracked memory reference resolves to an item still present in the item
list that differs from the element that received focus, the focus-in
handler requests a refocus onto the remembered item; when the reference
does not resolve, or the remembered element is no longer in the item
list, no refocus is requested and the arrived-at element keeps focus. -/
theorem c7_memory_on_tab_entry (e : Eng) (target m : Nat) (alive : Nat → Bool) :
    (e.g.tokens.memory = true → e.g.memory = some m → alive m = true →
      m ∈ e.g.items → target ≠ m → (onFocusIn target true alive e).2 = some m) ∧
    (derefMemory alive e.g.memory = none → (onFocusIn target true alive e).2 = none) ∧
    (∀ m', derefMemory alive e.g.memory = some m' → m' ∉ e.g.items →
      (onFocusIn target true alive e).2 = none) := by
  have hft : (focusInFallThrough target e).2 = none := by
    unfold focusInFallThrough
    by_cases hidx : -1 < jsIndexOf e.g.items target
    · rw [if_pos hidx]
    · rw [if_neg hidx]
  refine ⟨?_, ?_, ?_⟩
  · intro hmem hm halive hin hne
    simp [onFocusIn, derefMemory, hm, halive, hmem, hin, hne]
  · intro hnone
    simp only [onFocusIn, hnone, if_true]
    exact hft
  · intro m' hm' hout
    have hc : ¬(e.g.tokens.memory = true ∧ m' ∈ e.g.items ∧ target ≠ m') :=
      fun h => hout h.2.1
    simp only [onFocusIn, hm', if_true, if_neg hc]
    exact hft

/-- Concrete engine state used as witness input for C7: memory points at
item 3, a tab-style focus-in arrives at item 1. -/
def engMem : Eng :=
  { g := { tokens := parseTokens "toolbar", items := [1, 2, 3], gridItems := [],
           activeIndex := 0, gridPos := (-1, -1), memory := some 3 },
    tabs := tabsEmpty, snaps := snapsEmpty }

/-- Witness instantiating c7_memory_on_tab_entry: with memory alive the
handler requests a refocus onto item 3; with a collected reference it
requests nothing. -/
theorem c7_memory_on_tab_entry_witness :
    (onFocusIn 1 true aliveAll engMem).2 = some 3 ∧
    (onFocusIn 1 true (fun _ => false) engMem).2 = none :=
  ⟨(c7_memory_on_tab_entry engMem 1 3 aliveAll).1 rfl rfl rfl (by decide) (by decide),
   (c7_memory_on_tab_entry engMem 1 3 (fun _ => false)).2.1 rfl⟩

/-! Claim C3. -/

/-- Document with a focusable element (id 1) that itself contains a
focusable element (id 2), inside a toolbar group (id 0). -/
def docNestedFocusable : DNode :=
  .mk 0 (some "toolbar") false
    [ .mk 1 none true [ .mk 2 none true [] ] ]

/-- Registered-groups predicate for docNestedFocusable: only the root
container carries a focusgroup attribute. -/
def regRootOnly : Nat → Bool := fun i => i = 0

/-- C3 counterexample: element 1 satisfies the focusability predicate and
is accepted as an item, yet its focusable child 2 is also discovered as an
item of the same group — the TreeWalker continues into an accepted node's
children (only FILTER_REJECT prunes a subtree), so discovery does descend
into an accepted item's children, contradicting the claim. -/
theorem c3_counterexample_discovery_descends_into_item :
    discoverItems regRootOnly docNestedFocusable = [1, 2] := rfl

/-- Path relation: InTree root anc n states that n lies strictly inside
root's subtree and anc is the list of n's strict ancestors below root,
nearest first. -/
inductive InTree : DNode → List DNode → DNode → Prop where
  | child {root n : DNode} : n ∈ root.children → InTree root [] n
  | step {root : DNode} {anc : List DNode} {m n : DNode} :
      InTree root anc m → n ∈ m.children → InTree root (m :: anc) n

theorem filterNode_not_reject (reg : Nat → Bool) (anc : List DNode) (n : DNode)
    (hanc : ∀ a ∈ anc, reg a.id = false ∧ a.fg ≠ some "none") :
    filterNode reg anc n = (if n.focusable then .accept else .skip) := by
  have h1 : anc.find? (fun a => reg a.id) = none := by
    rw [List.find?_eq_none]
    intro a ha
    simp [(hanc a ha).1]
  have h2 : anc.find? (fun a => decide (a.fg = some "none")) = none := by
    rw [List.find?_eq_none]
    intro a ha
    simp [(hanc a ha).2]
  simp [filterNode, h1, h2]

theorem mem_walkChildren_of_mem_walkNode (reg : Nat → Bool) (anc : List DNode)
    (c : DNode) (l : List DNode) (hc : c ∈ l) (x : Nat) (hx : x ∈ walkNode reg anc c) :
    x ∈ walkChildren reg anc l := by
  induction l with
  | nil => simp at hc
  | cons d ds ih =>
    rcases List.mem_cons.mp hc with h | h
    · subst h
      simp only [walkChildren, List.mem_append]
      exact Or.inl hx
    · simp only [walkChildren, List.mem_append]
      exact Or.inr (ih h)

theorem mem_discover_of_inTree (reg : Nat → Bool) {root : DNode} {anc : List DNode}
    {n : DNode} (hin : InTree root anc n) :
    (∀ a ∈ anc, reg a.id = false ∧ a.fg ≠ some "none") →
    ∀ x, x ∈ walkNode reg anc n → x ∈ discoverItems reg root := by
  induction hin with
  | @child n hc =>
    intro _ x hx
    exact mem_walkChildren_of_mem_walkNode reg [] _ _ hc x hx
  | @step anc m n hm hc ih =>
    intro hanc x hx
    have hanc' : ∀ a ∈ anc, reg a.id = false ∧ a.fg ≠ some "none" :=
      fun a ha => hanc a (List.mem_cons_of_mem _ ha)
    apply ih hanc' x
    have hx2 : x ∈ walkChildren reg (m :: anc) m.children :=
      mem_walkChildren_of_mem_walkNode reg (m :: anc) _ _ hc x hx
    obtain ⟨i, f, b, c⟩ := m
    rw [walkNode, filterNode_not_reject reg anc _ hanc']
    rcases hb : (DNode.mk i f b c).focusable with _ | _
    · simpa using hx2
    · simp only [hb, if_true, List.mem_cons]
      exact Or.inr (by simpa using hx2)

/-- C3 amended: whenever a visited element satisfies the focusability
predicate and is not excluded by the nested-group or opt-out rules, it is
included as an item, and discovery continues into its children: its
focusable, non-excluded descendants are also included in the same group's
item list (an accepted item is not a leaf; only FILTER_REJECT prunes a
subtree). -/
theorem c3_amended_focusable_descendants_included (reg : Nat → Bool)
    (root n : DNode) (anc : List DNode) (hin : InTree root anc n)
    (hf : n.focusable = true)
    (hanc : ∀ a ∈ anc, reg a.id = false ∧ a.fg ≠ some "none") :
    n.id ∈ discoverItems reg root := by
  apply mem_discover_of_inTree reg hin hanc
  obtain ⟨i, f, b, c⟩ := n
  rw [walkNode, filterNode_not_reject reg anc _ hanc]
  simp only [DNode.focusable] at hf
  simp [DNode.focusable, hf, DNode.id]

/-! Claim C10. -/

theorem buildRowsAux_ne_nil (l : List (Nat × Rect)) (prev : Rect) (cur : List Nat)
    (acc : List (List Nat)) : buildRowsAux prev cur acc l ≠ [] := by
  induction l generalizing prev cur acc with
  | nil => simp [buildRowsAux]
  | cons p rest ih =>
    obtain ⟨el, r⟩ := p
    rw [buildRowsAux]
    by_cases hgap : prev.height / 2 < |r.top - prev.top|
    · rw [if_pos hgap]
      exact ih r [el] (acc ++ [cur])
    · rw [if_neg hgap]
      exact ih r (cur ++ [el]) acc

theorem buildRowsAux_rows_ne_nil (l : List (Nat × Rect)) (prev : Rect) (cur : List Nat)
    (acc : List (List Nat)) (hcur : cur ≠ []) (hacc : ∀ row ∈ acc, row ≠ []) :
    ∀ row ∈ buildRowsAux prev cur acc l, row ≠ [] := by
  induction l generalizing prev cur acc with
  | nil =>
    intro row hrow
    rw [buildRowsAux] at hrow
    rcases List.mem_append.mp hrow with h | h
    · exact hacc row h
    · rw [List.mem_singleton.mp h]
      exact hcur
  | cons p rest ih =>
    obtain ⟨el, r⟩ := p
    intro row hrow
    rw [buildRowsAux] at hrow
    by_cases hgap : prev.height / 2 < |r.top - prev.top|
    · rw [if_pos hgap] at hrow
      refine ih r [el] (acc ++ [cur]) (by simp) ?_ row hrow
      intro rw2 hrw2
      rcases List.mem_append.mp hrw2 with h | h
      · exact hacc rw2 h
      · rw [List.mem_singleton.mp h]
        exact hcur
    · rw [if_neg hgap] at hrow
      exact ih r (cur ++ [el]) acc (by simp) hacc row hrow

theorem buildRowsAux_mem (l : List (Nat × Rect)) (prev : Rect) (cur : List Nat)
    (acc : List (List Nat)) (row : List Nat) (x : Nat)
    (hrow : row ∈ buildRowsAux prev cur acc l) (hx : x ∈ row) :
    x ∈ cur ∨ (∃ r ∈ acc, x ∈ r) ∨ x ∈ l.map Prod.fst := by
  induction l generalizing prev cur acc with
  | nil =>
    rw [buildRowsAux] at hrow
    rcases List.mem_append.mp hrow with h | h
    · exact Or.inr (Or.inl ⟨row, h, hx⟩)
    · rw [List.mem_singleton.mp h] at hx
      exact Or.inl hx
  | cons p rest ih =>
    obtain ⟨el, r⟩ := p
    rw [buildRowsAux] at hrow
    by_cases hgap : prev.height / 2 < |r.top - prev.top|
    · rw [if_pos hgap] at hrow
      rcases ih r [el] (acc ++ [cur]) hrow with h | h | h
      · rcases List.mem_singleton.mp h with h2
        subst h2
        exact Or.inr (Or.inr (by simp))
      · obtain ⟨r2, hr2, hxr2⟩ := h
        rcases List.mem_append.mp hr2 with h3 | h3
        · exact Or.inr (Or.inl ⟨r2, h3, hxr2⟩)
        · rw [List.mem_singleton.mp h3] at hxr2
          exact Or.inl hxr2
      · exact Or.inr (Or.inr (by rw [List.map_cons]; exact List.mem_cons_of_mem _ h))
    · rw [if_neg hgap] at hrow
      rcases ih r (cur ++ [el]) acc hrow with h | h | h
      · rcases List.mem_append.mp h with h2 | h2
        · exact Or.inl h2
        · rw [List.mem_singleton.mp h2]
          exact Or.inr (Or.inr (by simp))
      · exact Or.inr (Or.inl h)
      · exact Or.inr (Or.inr (by rw [List.map_cons]; exact List.mem_cons_of_mem _ h))

theorem buildGridRows_mem (items : List Nat) (rects : Nat → Rect) (row : List Nat)
    (x : Nat) (hrow : row ∈ buildGridRows items rects) (hx : x ∈ row) : x ∈ items := by
  unfold buildGridRows at hrow
  rcases hs : (items.map (fun it => (it, rects it))).mergeSort jsRectLe with _ | ⟨⟨el, r⟩, rest⟩
  · rw [hs] at hrow
    simp at hrow
  · rw [hs] at hrow
    have hmem := buildRowsAux_mem rest r [el] [] row x hrow hx
    have hsorted : x ∈ (((el, r) :: rest).map Prod.fst) := by
      rcases hmem with h | h | h
      · rw [List.mem_singleton.mp h]
        simp
      · simp at h
      · simp [List.mem_cons]
        exact Or.inr (by simpa using h)
    rw [← hs] at hsorted
    have hperm := List.mergeSort_perm (items.map (fun it => (it, rects it))) jsRectLe
    have hx2 := (hperm.map Prod.fst).mem_iff.mp hsorted
    simpa using hx2

theorem buildGridRows_ne_nil (items : List Nat) (rects : Nat → Rect) (h : items ≠ []) :
    buildGridRows items rects ≠ [] := by
  simp only [buildGridRows]
  rcases hs : (items.map (fun it => (it, rects it))).mergeSort jsRectLe with _ | ⟨⟨el, r⟩, rest⟩
  · exfalso
    have hperm := List.mergeSort_perm (items.map (fun it => (it, rects it))) jsRectLe
    rw [hs] at hperm
    have hlen : items.length = 0 := by simpa using hperm.length_eq.symm
    exact h (List.length_eq_zero.mp hlen)
  · exact buildRowsAux_ne_nil rest r [el] []

theorem listGetI_clamp {α : Type} (l : List α) (i : Int) (hne : l ≠ []) :
    ∃ x, listGetI l (max 0 (min i ((l.length : Int) - 1))) = some x ∧ x ∈ l := by
  have hlen : 1 ≤ l.length := List.length_pos.mpr hne
  have h0 : 0 ≤ max 0 (min i ((l.length : Int) - 1)) := le_max_left 0 _
  have h1 : max 0 (min i ((l.length : Int) - 1)) < (l.length : Int) := by
    have h2 : min i ((l.length : Int) - 1) ≤ (l.length : Int) - 1 := min_le_right _ _
    omega
  have h2 : (max 0 (min i ((l.length : Int) - 1))).toNat < l.length := by omega
  rw [listGetI_nonneg l _ h0]
  refine ⟨l.get ⟨_, h2⟩, ?_, List.get_mem l _ h2⟩
  exact List.get?_eq_get h2

/-- C10: for a non-empty item list, every row produced by the grid builder
is non-empty, and consequently the final clamped row/column lookup of the
grid navigator always yields an element of the item list with a
non-negative index — the out-of-bounds (newIndex = -1) branch of
navigateGrid is unreachable on rows built from a non-empty list. -/
theorem c10_grid_rows_nonempty_lookup_total (items : List Nat) (rects : Nat → Rect)
    (h : items ≠ []) :
    (∀ row ∈ buildGridRows items rects, row ≠ []) ∧
    (∀ r c : Int, ∃ el : Nat,
      gridLookup (buildGridRows items rects)
        (clampRow (buildGridRows items rects) r)
        (clampCol (buildGridRows items rects) (clampRow (buildGridRows items rects) r) c)
        = some el ∧
      el ∈ items ∧ 0 ≤ jsIndexOf items el) := by
  have hrows : ∀ row ∈ buildGridRows items rects, row ≠ [] := by
    intro row hrow
    unfold buildGridRows at hrow
    rcases hs : (items.map (fun it => (it, rects it))).mergeSort jsRectLe with _ | ⟨⟨el, r⟩, rest⟩
    · rw [hs] at hrow
      simp at hrow
    · rw [hs] at hrow
      exact buildRowsAux_rows_ne_nil rest r [el] [] (by simp) (by simp) row hrow
  refine ⟨hrows, ?_⟩
  intro r c
  obtain ⟨rowR, hrowR, hrowmem⟩ :=
    listGetI_clamp (buildGridRows items rects) r (buildGridRows_ne_nil items rects h)
  have hrne : rowR ≠ [] := hrows rowR hrowmem
  obtain ⟨el, hel, helmem⟩ := listGetI_clamp rowR c hrne
  have helitems : el ∈ items := buildGridRows_mem items rects rowR el hrowmem helmem
  refine ⟨el, ?_, helitems, (jsIndexOf_mem_spec items el helitems).1⟩
  unfold gridLookup clampRow clampCol
  rw [show listGetI (buildGridRows items rects)
        (max 0 (min r (((buildGridRows items rects).length : Int) - 1))) = some rowR from hrowR]
  simpa using hel

/-- Witness instantiating c10_grid_rows_nonempty_lookup_total on a concrete
two-item list and a far out-of-range position. -/
theorem c10_witness :
    ([1, 2] : List Nat) ≠ [] ∧
    (∀ row ∈ buildGridRows [1, 2] rectsConst, row ≠ []) ∧
    (∃ el : Nat,
      gridLookup (buildGridRows [1, 2] rectsConst)
        (clampRow (buildGridRows [1, 2] rectsConst) 7)
        (clampCol (buildGridRows [1, 2] rectsConst)
          (clampRow (buildGridRows [1, 2] rectsConst) 7) (-5))
        = some el ∧
      el ∈ [1, 2] ∧ 0 ≤ jsIndexOf [1, 2] el) :=
  ⟨by decide,
   (c10_grid_rows_nonempty_lookup_total [1, 2] rectsConst (by decide)).1,
   (c10_grid_rows_nonempty_lookup_total [1, 2] rectsConst (by decide)).2 7 (-5)⟩


/-! Claim C5. -/

/-- Consistency of gridPosition with activeIndex: whenever activeIndex
denotes an element of the item list that occurs in the grid rows, the cell
at gridPosition holds exactly that element. -/
def gridConsistent (g : GState) : Prop :=
  ∀ el ∈ (listGetI g.items g.activeIndex).toList,
    el ∈ g.gridItems.flatten →
      gridLookup g.gridItems g.gridPos.1 g.gridPos.2 = some el

instance gridConsistentDecidable (g : GState) : Decidable (gridConsistent g) :=
  inferInstanceAs (Decidable (∀ el ∈ (listGetI g.items g.activeIndex).toList,
    el ∈ g.gridItems.flatten →
      gridLookup g.gridItems g.gridPos.1 g.gridPos.2 = some el))

/-- Grid engine state for the C5 counterexample: a 2-by-3 grid, first cell
active, gridPosition (0, 0), initially consistent. -/
def engGridC5 : Eng :=
  { g := { tokens := parseTokens "grid", items := [1, 2, 3, 4, 5, 6],
           gridItems := [[1, 2, 3], [4, 5, 6]], activeIndex := 0,
           gridPos := (0, 0), memory := none },
    tabs := tabsEmpty, snaps := snapsEmpty }

/-- C5 counterexample: the programmatic focusItem operation on a grid group
moves activeIndex from 0 to 1 but leaves gridPosition at (0, 0); the cell
at gridPosition then holds element 1 while items[activeIndex] is element 2,
which does occur in the grid rows, so the claimed consistency after
focusItem is false (the same holds for focus-in handling and the other
programmatic operations, which also go through focusItemByIndex without
touching gridPosition). -/
theorem c5_counterexample_focusitem_stales_gridpos :
    gridConsistent engGridC5.g ∧
    (step (.apiFocusItem 2) engGridC5).g.activeIndex = 1 ∧
    (step (.apiFocusItem 2) engGridC5).g.gridPos = (0, 0) ∧
    ¬ gridConsistent (step (.apiFocusItem 2) engGridC5).g := by
  refine ⟨by decide, rfl, rfl, by decide⟩

theorem findPosAux_lookup (a : Nat) (rows : List (List Nat)) (hmem : a ∈ rows.flatten) :
    ∀ off : Nat, ∃ i : Nat, ∃ row : List Nat,
      findPosAux a off rows = (((off + i : Nat) : Int), jsIndexOf row a) ∧
      rows.get? i = some row ∧ a ∈ row := by
  induction rows with
  | nil => simp at hmem
  | cons row rest ih =>
    intro off
    by_cases hrow : a ∈ row
    · refine ⟨0, row, ?_, by simp, hrow⟩
      have h := (jsIndexOf_mem_spec row a hrow).1
      rw [findPosAux, if_pos (by omega)]
      simp
    · have hmem2 : a ∈ rest.flatten := by
        rw [List.flatten_cons] at hmem
        rcases List.mem_append.mp hmem with h | h
        · exact absurd h hrow
        · exact h
      obtain ⟨i, row2, h1, h2, h3⟩ := ih hmem2 (off + 1)
      refine ⟨i + 1, row2, ?_, by simpa using h2, h3⟩
      rw [findPosAux, if_neg (by rw [jsIndexOf_not_mem row a hrow]; omega), h1]
      congr 2
      omega

theorem findPos_lookup (a : Nat) (rows : List (List Nat)) (hmem : a ∈ rows.flatten) :
    gridLookup rows (findPosAux a 0 rows).1 (findPosAux a 0 rows).2 = some a := by
  obtain ⟨i, row, h1, h2, h3⟩ := findPosAux_lookup a rows hmem 0
  rw [h1]
  unfold gridLookup
  have h0 : (0 : Int) ≤ ((0 + i : Nat) : Int) := by omega
  rw [listGetI_nonneg _ _ h0]
  have hti : ((0 + i : Nat) : Int).toNat = i := by omega
  rw [hti, h2]
  simp only [Option.bind_some]
  exact (jsIndexOf_mem_spec row a h3).2.2

theorem buildGrid_fields (rects : Nat → Rect) (g : GState) :
    (buildGrid rects g).items = g.items ∧
    (buildGrid rects g).activeIndex = g.activeIndex ∧
    (buildGrid rects g).tokens = g.tokens ∧
    (buildGrid rects g).memory = g.memory := by
  unfold buildGrid
  split
  · exact ⟨rfl, rfl, rfl, rfl⟩
  · exact ⟨rfl, rfl, rfl, rfl⟩

theorem buildGrid_grid_nonempty (rects : Nat → Rect) (g : GState)
    (hlen : ¬ g.items.length = 0) :
    (buildGrid rects g).gridItems = buildGridRows g.items rects ∧
    (buildGrid rects g).gridPos =
      (match (if -1 < g.activeIndex then listGetI g.items g.activeIndex else none) with
        | some activeEl => findPosAux activeEl 0 (buildGridRows g.items rects)
        | none => (-1, -1)) := by
  unfold buildGrid
  rw [if_neg hlen]
  exact ⟨rfl, rfl⟩

theorem buildGrid_consistent (rects : Nat → Rect) (g : GState) :
    gridConsistent (buildGrid rects g) := by
  intro el hel hflat
  by_cases hlen : g.items.length = 0
  · exfalso
    have hitems : (buildGrid rects g).items = g.items := (buildGrid_fields rects g).1
    have hai : (buildGrid rects g).activeIndex = g.activeIndex := (buildGrid_fields rects g).2.1
    rw [hitems, hai, List.length_eq_zero.mp hlen] at hel
    simp [listGetI] at hel
  · have hitems : (buildGrid rects g).items = g.items := (buildGrid_fields rects g).1
    have hai : (buildGrid rects g).activeIndex = g.activeIndex := (buildGrid_fields rects g).2.1
    obtain ⟨hgrid, hpos⟩ := buildGrid_grid_nonempty rects g hlen
    rw [hitems, hai] at hel
    rw [hgrid] at hflat
    rw [hgrid, hpos]
    by_cases hneg : -1 < g.activeIndex
    · rw [if_pos hneg]
      rcases hac : listGetI g.items g.activeIndex with _ | a
      · rw [hac] at hel
        simp at hel
      · rw [hac] at hel
        simp at hel
        subst hel
        exact findPos_lookup el (buildGridRows g.items rects) hflat
    · exfalso
      rw [listGetI_neg _ _ (by omega)] at hel
      simp at hel

theorem focusItemByIndex_fields (i : Int) (e : Eng) :
    (focusItemByIndex i e).1.g.items = e.g.items ∧
    (focusItemByIndex i e).1.g.gridItems = e.g.gridItems ∧
    (focusItemByIndex i e).1.g.gridPos = e.g.gridPos ∧
    (focusItemByIndex i e).1.g.tokens = e.g.tokens ∧
    (focusItemByIndex i e).1.g.memory = e.g.memory ∧
    (focusItemByIndex i e).1.snaps = e.snaps := by
  unfold focusItemByIndex
  split
  · exact ⟨rfl, rfl, rfl, rfl, rfl, rfl⟩
  · exact ⟨rfl, rfl, rfl, rfl, rfl, rfl⟩

theorem focusItemByIndex_activeIndex (i : Int) (e : Eng)
    (h0 : 0 ≤ i) (h1 : i < (e.g.items.length : Int)) :
    (focusItemByIndex i e).1.g.activeIndex = i := by
  unfold focusItemByIndex
  split
  · rename_i hguard
    rcases hguard with h | h | h
    · exact h.symm
    · omega
    · omega
  · rfl

theorem gridCommit_consistent (row4 col3 : Int) (e : Eng) (h : gridConsistent e.g) :
    gridConsistent (gridCommit row4 col3 e).1.g := by
  unfold gridCommit
  rcases hlk : gridLookup e.g.gridItems row4 col3 with _ | el
  · simpa [gridNewIndex] using h
  · simp only [gridNewIndex]
    by_cases hni : -1 < jsIndexOf e.g.items el
    · rw [if_pos hni]
      have hmem := mem_of_jsIndexOf_nonneg _ _ hni
      obtain ⟨hge, hlt, hat⟩ := jsIndexOf_mem_spec e.g.items el hmem
      intro el2 hel2 hflat2
      have hfx := focusItemByIndex_fields (jsIndexOf e.g.items el)
        { e with g := { e.g with gridPos := (row4, col3) } }
      have hax := focusItemByIndex_activeIndex (jsIndexOf e.g.items el)
        { e with g := { e.g with gridPos := (row4, col3) } } hge hlt
      rw [hfx.1, hax] at hel2
      rw [hfx.2.1] at hflat2 ⊢
      rw [hfx.2.2.1]
      rw [show ({ e with g := { e.g with gridPos := (row4, col3) } } : Eng).g.items
            = e.g.items from rfl] at hel2
      rw [show ({ e with g := { e.g with gridPos := (row4, col3) } } : Eng).g.gridItems
            = e.g.gridItems from rfl] at hflat2 ⊢
      rw [show ({ e with g := { e.g with gridPos := (row4, col3) } } : Eng).g.gridPos
            = (row4, col3) from rfl]
      rw [hat] at hel2
      simp at hel2
      subst hel2
      exact hlk
    · rw [if_neg hni]
      exact h

theorem navigateGrid_consistent (k : Key) (e : Eng) (h : gridConsistent e.g) :
    gridConsistent (navigateGrid k e).1.g := by
  unfold navigateGrid
  split
  · exact h
  · exact gridCommit_consistent _ _ e h

theorem focusItemByIndex_gridPos (i : Int) (e : Eng) :
    (focusItemByIndex i e).1.g.gridPos = e.g.gridPos :=
  (focusItemByIndex_fields i e).2.2.1

theorem apiFocusItemFn_gridPos (id : Nat) (e : Eng) :
    (apiFocusItemFn id e).1.g.gridPos = e.g.gridPos := by
  unfold apiFocusItemFn
  split
  · exact focusItemByIndex_gridPos _ _
  · rfl

theorem navigateLinear_gridPos (isRTL isVertical : Bool) (k : Key) (e : Eng) :
    (navigateLinear isRTL isVertical k e).1.g.gridPos = e.g.gridPos := by
  unfold navigateLinear
  split
  · rfl
  · split
    · rfl
    · exact focusItemByIndex_gridPos _ _

theorem focusInFallThrough_gridPos (target : Nat) (e : Eng) :
    (focusInFallThrough target e).1.g.gridPos = e.g.gridPos := by
  unfold focusInFallThrough
  split
  · split
    · rfl
    · rfl
  · rfl

theorem onFocusIn_gridPos (target : Nat) (isTabbing : Bool) (alive : Nat → Bool) (e : Eng) :
    (onFocusIn target isTabbing alive e).1.g.gridPos = e.g.gridPos := by
  unfold onFocusIn
  split
  · split
    · split
      · rfl
      · exact focusInFallThrough_gridPos _ _
    · exact focusInFallThrough_gridPos _ _
  · exact focusInFallThrough_gridPos _ _

/-- C5 amended: gridPosition is consistent with activeIndex after the grid
rebuild phase (buildGrid) and stays so across grid navigation
(navigateGrid); but the focus-in handler and the programmatic focusItem /
focusNext / focusPrev / focusFirst / focusLast operations change
activeIndex without updating gridPosition (each leaves gridPosition
untouched), so the claimed consistency is not maintained by those
operations — the counterexample shows it actually breaking. -/
theorem c5_amended_gridpos_consistency (rects : Nat → Rect) (g : GState) (e : Eng)
    (k : Key) (id target : Nat) (isTabbing : Bool) (alive : Nat → Bool)
    (isRTL isVertical : Bool) :
    gridConsistent (buildGrid rects g) ∧
    (gridConsistent e.g → gridConsistent (navigateGrid k e).1.g) ∧
    (apiFocusItemFn id e).1.g.gridPos = e.g.gridPos ∧
    (navigateLinear isRTL isVertical k e).1.g.gridPos = e.g.gridPos ∧
    (onFocusIn target isTabbing alive e).1.g.gridPos = e.g.gridPos :=
  ⟨buildGrid_consistent rects g, navigateGrid_consistent k e,
   apiFocusItemFn_gridPos id e, navigateLinear_gridPos isRTL isVertical k e,
   onFocusIn_gridPos target isTabbing alive e⟩

/-- Witness instantiating c5_amended_gridpos_consistency on the concrete
grid state, discharging the consistency hypothesis of the navigation part
by evaluation. -/
theorem c5_amended_witness :
    gridConsistent (buildGrid rectsConst engGridC5.g) ∧
    gridConsistent (navigateGrid .right engGridC5).1.g :=
  ⟨(c5_amended_gridpos_consistency rectsConst engGridC5.g engGridC5 .right 2 1 false
      aliveAll false false).1,
   (c5_amended_gridpos_consistency rectsConst engGridC5.g engGridC5 .right 2 1 false
      aliveAll false false).2.1 (by decide)⟩


/-! Claim C6. -/

/-- Grid engine state for the column-overflow scenario: two rows of three
items, active at position (0, 2) (the third item), with arbitrary token
set, attribute state and memory. -/
def engC6 (a b c d e2 f : Nat) (t : Tokens) (tb : Tabs) (sn : Snaps) (mem : Option Nat) : Eng :=
  { g := { tokens := t, items := [a, b, c, d, e2, f],
           gridItems := [[a, b, c], [d, e2, f]],
           activeIndex := 2, gridPos := (0, 2), memory := mem },
    tabs := tb, snaps := sn }

set_option maxHeartbeats 1000000 in
/-- C6: in a grid group whose rows are two rows of three items (distinct
elements), at position (0, 2): ArrowRight with none of wrap, col-wrap or
col-flow set leaves the whole engine state unchanged (the column clamps
back to 2); ArrowRight with col-flow set moves to position (1, 0) and to
the fourth item, regardless of the col-wrap and wrap modifiers — flow is
evaluated before wrap or clamp. The Tokens constructor fields are
(behavior, wrap, inline, block, memory, grid, shadowInclusive, rowWrap,
colWrap, rowFlow, colFlow). -/
theorem c6_grid_column_overflow (a b c d e2 f : Nat)
    (hnd : ([a, b, c, d, e2, f] : List Nat).Nodup)
    (bhv : String) (wr cw il bl me gr sh rw2 rf2 : Bool)
    (tb : Tabs) (sn : Snaps) (mem : Option Nat) :
    ((navigateGrid .right
        (engC6 a b c d e2 f ⟨bhv, false, il, bl, me, gr, sh, rw2, false, rf2, false⟩ tb sn mem)).1 =
      engC6 a b c d e2 f ⟨bhv, false, il, bl, me, gr, sh, rw2, false, rf2, false⟩ tb sn mem) ∧
    ((navigateGrid .right
        (engC6 a b c d e2 f ⟨bhv, wr, il, bl, me, gr, sh, rw2, cw, rf2, true⟩ tb sn mem)).1.g.gridPos
        = (1, 0) ∧
     (navigateGrid .right
        (engC6 a b c d e2 f ⟨bhv, wr, il, bl, me, gr, sh, rw2, cw, rf2, true⟩ tb sn mem)).1.g.activeIndex
        = 3) := by
  have h2 : jsIndexOf [a, b, c, d, e2, f] c = 2 := by
    have := jsIndexOf_get [a, b, c, d, e2, f] hnd 2 (by simp)
    simpa using this
  have h3 : jsIndexOf [a, b, c, d, e2, f] d = 3 := by
    have := jsIndexOf_get [a, b, c, d, e2, f] hnd 3 (by simp)
    simpa using this
  have hlk1 : gridNewIndex [a, b, c, d, e2, f] (gridLookup [[a, b, c], [d, e2, f]] 0 2) = 2 := by
    rw [show gridLookup [[a, b, c], [d, e2, f]] 0 2 = some c from rfl]
    simpa [gridNewIndex] using h2
  have hlk2 : gridNewIndex [a, b, c, d, e2, f] (gridLookup [[a, b, c], [d, e2, f]] 1 0) = 3 := by
    rw [show gridLookup [[a, b, c], [d, e2, f]] 1 0 = some d from rfl]
    simpa [gridNewIndex] using h3
  refine ⟨?_, ?_⟩
  · have hng : navigateGrid .right
        (engC6 a b c d e2 f ⟨bhv, false, il, bl, me, gr, sh, rw2, false, rf2, false⟩ tb sn mem) =
        gridCommit 0 2
          (engC6 a b c d e2 f ⟨bhv, false, il, bl, me, gr, sh, rw2, false, rf2, false⟩ tb sn mem) := by
      unfold navigateGrid engC6
      rw [if_neg (by simp)]
      rfl
    rw [hng]
    unfold gridCommit engC6
    dsimp only
    rw [hlk1, if_pos (by norm_num : (-1 : Int) < 2)]
    unfold focusItemByIndex
    dsimp only
    rw [if_pos (Or.inl rfl)]
  · have hng : navigateGrid .right
        (engC6 a b c d e2 f ⟨bhv, wr, il, bl, me, gr, sh, rw2, cw, rf2, true⟩ tb sn mem) =
        gridCommit 1 0
          (engC6 a b c d e2 f ⟨bhv, wr, il, bl, me, gr, sh, rw2, cw, rf2, true⟩ tb sn mem) := by
      unfold navigateGrid engC6
      rw [if_neg (by simp)]
      rfl
    rw [hng]
    unfold gridCommit engC6
    dsimp only
    rw [hlk2, if_pos (by norm_num : (-1 : Int) < 3)]
    unfold focusItemByIndex
    dsimp only
    rw [if_neg (by norm_num)]
    constructor
    · rfl
    · rfl

/-- Witness instantiating c6_grid_column_overflow on items 1..6 with
behavior string "grid". -/
theorem c6_grid_column_overflow_witness :
    ((navigateGrid .right
        (engC6 1 2 3 4 5 6 ⟨"grid", false, false, false, true, true, false, false, false, false, false⟩
          tabsEmpty snapsEmpty none)).1 =
      engC6 1 2 3 4 5 6 ⟨"grid", false, false, false, true, true, false, false, false, false, false⟩
        tabsEmpty snapsEmpty none) ∧
    ((navigateGrid .right
        (engC6 1 2 3 4 5 6 ⟨"grid", false, false, false, true, true, false, false, false, false, true⟩
          tabsEmpty snapsEmpty none)).1.g.gridPos = (1, 0) ∧
     (navigateGrid .right
        (engC6 1 2 3 4 5 6 ⟨"grid", false, false, false, true, true, false, false, false, false, true⟩
          tabsEmpty snapsEmpty none)).1.g.activeIndex = 3) :=
  c6_grid_column_overflow 1 2 3 4 5 6 (by decide) "grid" false false false false true true
    false false false tabsEmpty snapsEmpty none


/-! Claim C1. -/

theorem rovingLoop_not_mem (active : Int) (k : Nat) (l : List Nat) (t : Tabs)
    (id : Nat) (h : id ∉ l) : rovingLoop active k l t id = t id := by
  induction l generalizing k t with
  | nil => rfl
  | cons a rest ih =>
    have h1 : id ≠ a := fun e => h (e ▸ List.mem_cons_self a rest)
    have h2 : id ∉ rest := fun m => h (List.mem_cons_of_mem a m)
    rw [rovingLoop, ih (k + 1) _ h2]
    simp [setAttr, h1]

theorem rovingLoop_get (active : Int) (l : List Nat) (hnd : l.Nodup) (k : Nat)
    (t : Tabs) (i : Nat) (hi : i < l.length) :
    rovingLoop active k l t l[i] =
      some (if ((k + i : Nat) : Int) = active then "0" else "-1") := by
  induction l generalizing k t i with
  | nil => simp at hi
  | cons a rest ih =>
    rw [List.nodup_cons] at hnd
    cases i with
    | zero =>
      have hmem : a ∉ rest := hnd.1
      rw [show (a :: rest)[0] = a from rfl, rovingLoop,
        rovingLoop_not_mem active (k + 1) rest _ a hmem]
      simp [setAttr]
    | succ j =>
      have hj : j < rest.length := by simpa using hi
      rw [show (a :: rest)[j + 1] = rest[j] from by simp, rovingLoop]
      rw [ih hnd.2 (k + 1) _ j hj, show (k + 1) + j = k + (j + 1) from by omega]

theorem applyRoving_get (g : GState) (t : Tabs) (hnd : g.items.Nodup)
    (i : Nat) (hi : i < g.items.length) :
    applyRovingTabindex g t g.items[i] =
      some (if (i : Int) = g.activeIndex then "0" else "-1") := by
  have := rovingLoop_get g.activeIndex g.items hnd 0 t i hi
  simpa [applyRovingTabindex] using this

/-- Predicate selecting the primary position a of a group state: the
activeIndex denotes position a and the roving tabindex marks exactly that
position primary ("0"), all other positions secondary ("-1"). -/
def rovingPrimaryAt (e : Eng) (a : Nat) : Prop :=
  ∃ _ : a < e.g.items.length, e.g.activeIndex = (a : Int) ∧
    ∀ i (hi : i < e.g.items.length),
      e.tabs e.g.items[i] = some (if i = a then "0" else "-1")

/-- Roving invariant: a non-empty group has a primary position. -/
def rovingInv (e : Eng) : Prop :=
  e.g.items ≠ [] → ∃ a, rovingPrimaryAt e a

/-- Well-formedness maintained by the engine: distinct items plus the
roving invariant. -/
def engWF (e : Eng) : Prop := e.g.items.Nodup ∧ rovingInv e

/-- Conclusion of the roving-uniqueness claim: exactly one item of the
list carries tabindex "0", and it is the one at activeIndex (all others
carry "-1"). -/
def exactlyOnePrimary (e : Eng) : Prop :=
  e.g.items.countP (fun id => e.tabs id == some "0") = 1 ∧
  ∃ a, rovingPrimaryAt e a


theorem applyRoving_values (g : GState) (t : Tabs) (hnd : g.items.Nodup)
    (a : Nat) (_ha : a < g.items.length) (hai : g.activeIndex = (a : Int)) :
    ∀ i (hi : i < g.items.length),
      applyRovingTabindex g t g.items[i] = some (if i = a then "0" else "-1") := by
  intro i hi
  rw [applyRoving_get g t hnd i hi, hai]
  by_cases h : i = a
  · simp [h]
  · have hne2 : ¬ ((i : Int) = (a : Int)) := fun hc => h (by exact_mod_cast hc)
    simp [h, hne2]

/-- Re-applying the roving tabindex to any group record with distinct
items and an in-range activeIndex yields a well-formed engine state. -/
theorem engWF_applyRoving (G : GState) (t0 : Tabs) (sn : Snaps)
    (hnd : G.items.Nodup)
    (hval : G.items ≠ [] → 0 ≤ G.activeIndex ∧ G.activeIndex < (G.items.length : Int)) :
    engWF { g := G, tabs := applyRovingTabindex G t0, snaps := sn } := by
  constructor
  · exact hnd
  · intro hne
    obtain ⟨h0, h1⟩ := hval hne
    refine ⟨G.activeIndex.toNat, ⟨?_, ?_, ?_⟩⟩
    · show G.activeIndex.toNat < G.items.length
      omega
    · show G.activeIndex = ((G.activeIndex.toNat : Nat) : Int)
      omega
    · intro j hj
      exact applyRoving_values G t0 hnd G.activeIndex.toNat (by omega) (by omega) j hj

theorem focusItemByIndex_wf (i : Int) (e : Eng) (h : engWF e) :
    engWF (focusItemByIndex i e).1 := by
  unfold focusItemByIndex
  split
  · exact h
  · rename_i hguard
    push_neg at hguard
    obtain ⟨hne, h0, h1⟩ := hguard
    exact engWF_applyRoving { e.g with activeIndex := i } e.tabs e.snaps h.1
      (fun _ => ⟨h0, h1⟩)

theorem navigateLinear_wf (isRTL isVertical : Bool) (k : Key) (e : Eng) (h : engWF e) :
    engWF (navigateLinear isRTL isVertical k e).1 := by
  unfold navigateLinear
  split
  · exact h
  · split
    · exact h
    · exact focusItemByIndex_wf _ _ h

theorem gridCommit_wf (row4 col3 : Int) (e : Eng) (h : engWF e) :
    engWF (gridCommit row4 col3 e).1 := by
  unfold gridCommit
  split
  · exact focusItemByIndex_wf _ _ h
  · exact h

theorem navigateGrid_wf (k : Key) (e : Eng) (h : engWF e) :
    engWF (navigateGrid k e).1 := by
  unfold navigateGrid
  split
  · exact h
  · exact gridCommit_wf _ _ e h

theorem onKeyDown_wf (k : Key) (isRTL isVertical isText : Bool) (e : Eng) (h : engWF e) :
    engWF (onKeyDown k isRTL isVertical isText e).1 := by
  unfold onKeyDown
  split
  · exact h
  · split
    · exact h
    · split
      · exact navigateGrid_wf k e h
      · exact navigateLinear_wf isRTL isVertical k e h

theorem focusInFallThrough_wf (target : Nat) (e : Eng) (h : engWF e) :
    engWF (focusInFallThrough target e).1 := by
  unfold focusInFallThrough
  by_cases hidx : -1 < jsIndexOf e.g.items target
  · rw [if_pos hidx]
    have hmem := mem_of_jsIndexOf_nonneg _ _ hidx
    obtain ⟨hge, hlt, -⟩ := jsIndexOf_mem_spec e.g.items target hmem
    by_cases hact : e.g.activeIndex ≠ jsIndexOf e.g.items target
    · rw [if_pos hact]
      exact engWF_applyRoving
        { e.g with activeIndex := jsIndexOf e.g.items target, memory := some target }
        e.tabs e.snaps h.1 (fun _ => ⟨hge, hlt⟩)
    · rw [if_neg hact]
      exact h
  · rw [if_neg hidx]
    exact h

theorem onFocusIn_wf (target : Nat) (isTabbing : Bool) (alive : Nat → Bool) (e : Eng)
    (h : engWF e) : engWF (onFocusIn target isTabbing alive e).1 := by
  unfold onFocusIn
  split
  · split
    · split
      · exact h
      · exact focusInFallThrough_wf _ _ h
    · exact focusInFallThrough_wf _ _ h
  · exact focusInFallThrough_wf _ _ h

theorem apiFocusItemFn_wf (id : Nat) (e : Eng) (h : engWF e) :
    engWF (apiFocusItemFn id e).1 := by
  unfold apiFocusItemFn
  split
  · exact focusItemByIndex_wf _ _ h
  · exact h

theorem rebuildFallback_bounds (tk : Tokens) (alive : Nat → Bool) (mem : Option Nat)
    (items : List Nat) (hne : items ≠ []) :
    0 ≤ rebuildFallback tk alive mem items ∧
      rebuildFallback tk alive mem items < (items.length : Int) := by
  have hlen : 0 < items.length := List.length_pos.mpr hne
  unfold rebuildFallback
  split
  · rename_i m hm
    split
    · rename_i hc
      have hs := jsIndexOf_mem_spec items m hc.2
      exact ⟨hs.1, hs.2.1⟩
    · rw [if_neg (by omega)]
      exact ⟨le_refl 0, by exact_mod_cast hlen⟩
  · rw [if_neg (by omega)]
    exact ⟨le_refl 0, by exact_mod_cast hlen⟩

theorem rebuildActiveIndex_bounds (tk : Tokens) (alive : Nat → Bool)
    (mem oa : Option Nat) (items : List Nat) (hne : items ≠ []) :
    0 ≤ rebuildActiveIndex tk alive mem oa items ∧
      rebuildActiveIndex tk alive mem oa items < (items.length : Int) := by
  unfold rebuildActiveIndex
  split
  · rename_i a
    split
    · rename_i hmem2
      have hs := jsIndexOf_mem_spec items a hmem2
      exact ⟨hs.1, hs.2.1⟩
    · exact rebuildFallback_bounds tk alive mem items hne
  · exact rebuildFallback_bounds tk alive mem items hne

theorem rebuildGState_fields (tk : Tokens) (d : List Nat) (rects : Nat → Rect)
    (alive : Nat → Bool) (e : Eng) :
    (rebuildGState tk d rects alive e).items = d ∧
    (rebuildGState tk d rects alive e).activeIndex =
      rebuildActiveIndex tk alive e.g.memory (rebuildOldActive e) d := by
  unfold rebuildGState
  split
  · exact ⟨(buildGrid_fields _ _).1, (buildGrid_fields _ _).2.1⟩
  · exact ⟨rfl, rfl⟩

theorem rebuildCore_wf (tk : Tokens) (d : List Nat) (rects : Nat → Rect)
    (alive : Nat → Bool) (e : Eng) (hd : d.Nodup) :
    engWF (rebuildCore tk d rects alive e) := by
  obtain ⟨hitems, hai⟩ := rebuildGState_fields tk d rects alive e
  refine engWF_applyRoving (rebuildGState tk d rects alive e) _ _ ?_ ?_
  · rw [hitems]
    exact hd
  · intro hne
    rw [hitems] at hne
    rw [hai, hitems]
    exact rebuildActiveIndex_bounds tk alive e.g.memory (rebuildOldActive e) d hne

theorem rebuild_wf (raw : String) (d : List Nat) (rects : Nat → Rect)
    (alive : Nat → Bool) (e : Eng) (hd : d.Nodup) :
    engWF (rebuild raw d rects alive e) := by
  unfold rebuild
  split
  · exact ⟨List.nodup_nil, fun hne => absurd rfl hne⟩
  · exact rebuildCore_wf _ _ _ _ _ hd

/-- Validity of an operation: a rebuild must carry a duplicate-free
discovery result (discoverItems visits every element at most once, so
every actual discovery result satisfies this). -/
def opOk : Op → Prop
  | .rebuildOp _ d _ _ => d.Nodup
  | _ => True

instance opOkDecidable : (o : Op) → Decidable (opOk o)
  | .rebuildOp _ d _ _ => inferInstanceAs (Decidable d.Nodup)
  | .keydown _ _ _ _ => inferInstanceAs (Decidable True)
  | .focusInEv _ _ _ => inferInstanceAs (Decidable True)
  | .apiFocusItem _ => inferInstanceAs (Decidable True)
  | .apiFocusNext _ _ => inferInstanceAs (Decidable True)
  | .apiFocusPrev _ _ => inferInstanceAs (Decidable True)
  | .apiFocusFirst _ _ => inferInstanceAs (Decidable True)
  | .apiFocusLast _ _ => inferInstanceAs (Decidable True)

theorem step_wf (o : Op) (e : Eng) (ho : opOk o) (h : engWF e) : engWF (step o e) := by
  cases o with
  | rebuildOp raw d rects alive => exact rebuild_wf raw d rects alive e ho
  | keydown k r v t => exact onKeyDown_wf k r v t e h
  | focusInEv t tb alive => exact onFocusIn_wf t tb alive e h
  | apiFocusItem id => exact apiFocusItemFn_wf id e h
  | apiFocusNext r v => exact navigateLinear_wf r v .right e h
  | apiFocusPrev r v => exact navigateLinear_wf r v .left e h
  | apiFocusFirst r v => exact navigateLinear_wf r v .home e h
  | apiFocusLast r v => exact navigateLinear_wf r v .end' e h

theorem runOps_wf (ops : List Op) (e : Eng) (h : engWF e)
    (hops : ∀ o ∈ ops, opOk o) : engWF (runOps ops e) := by
  induction ops generalizing e with
  | nil => exact h
  | cons o t ih =>
    exact ih (step o e) (step_wf o e (hops o (List.mem_cons_self o t)) h)
      (fun o2 ho2 => hops o2 (List.mem_cons_of_mem _ ho2))

theorem engWF_exactlyOnePrimary (e : Eng) (h : engWF e) (hne : e.g.items ≠ []) :
    exactlyOnePrimary e := by
  obtain ⟨hnd, hinv⟩ := h
  obtain ⟨a, ha, hai, hval⟩ := hinv hne
  refine ⟨?_, ⟨a, ha, hai, hval⟩⟩
  have hmema : e.g.items[a] ∈ e.g.items := List.getElem_mem ha
  have hcongr : ∀ x ∈ e.g.items,
      ((e.tabs x == some "0") = true) ↔ ((x == e.g.items[a]) = true) := by
    intro x hx
    obtain ⟨i, hi, rfl⟩ := List.mem_iff_getElem.mp hx
    by_cases hia : i = a
    · subst hia
      have hv := hval i hi
      rw [if_pos rfl] at hv
      simp [hv]
    · have hv := hval i hi
      rw [if_neg hia] at hv
      constructor
      · intro hb
        rw [hv] at hb
        simp at hb
      · intro hb
        exfalso
        have hxeq : e.g.items[i] = e.g.items[a] := by simpa using hb
        exact hia ((List.Nodup.getElem_inj_iff hnd).mp hxeq)
  rw [List.countP_congr hcongr]
  have hcnt : List.count e.g.items[a] e.g.items = 1 :=
    List.count_eq_one_of_mem hnd hmema
  rw [← hcnt]
  rfl

/-- C1: for any group, starting from any engine state, after a completed
rebuild (with a duplicate-free discovery result) followed by any sequence
of navigations and focus events (linear or grid key navigation, focus-in
handling, or the programmatic focusItem / focusNext / focusPrev /
focusFirst / focusLast operations), a non-empty item list has exactly one
item with tabindex "0" — the item at activeIndex — and every other item
has tabindex "-1". -/
theorem c1_roving_uniqueness (e0 : Eng) (raw : String) (disc : List Nat)
    (rects : Nat → Rect) (alive : Nat → Bool) (ops : List Op)
    (hd : disc.Nodup) (hops : ∀ o ∈ ops, opOk o) :
    (runOps ops (step (.rebuildOp raw disc rects alive) e0)).g.items ≠ [] →
      exactlyOnePrimary (runOps ops (step (.rebuildOp raw disc rects alive) e0)) := by
  intro hne
  exact engWF_exactlyOnePrimary _
    (runOps_wf ops _ (rebuild_wf raw disc rects alive e0 hd) hops) hne

/-- Witness instantiating c1_roving_uniqueness: a two-item toolbar with a
programmatic focusNext and an ArrowLeft key press after the rebuild. -/
theorem c1_roving_uniqueness_witness :
    ([1, 2] : List Nat).Nodup ∧
    ((runOps [Op.apiFocusNext false false, Op.keydown .left false false false]
        (step (.rebuildOp "toolbar wrap" [1, 2] rectsConst aliveAll) engInit)).g.items ≠ [] →
      exactlyOnePrimary
        (runOps [Op.apiFocusNext false false, Op.keydown .left false false false]
          (step (.rebuildOp "toolbar wrap" [1, 2] rectsConst aliveAll) engInit))) :=
  ⟨by decide,
   c1_roving_uniqueness engInit "toolbar wrap" [1, 2] rectsConst aliveAll
     [Op.apiFocusNext false false, Op.keydown .left false false false]
     (by decide) (by decide)⟩


/-- Witness applying c3_amended_focusable_descendants_included at node 2 of
docNestedFocusable, a focusable child of the accepted item 1. -/
theorem c3_amended_witness :
    (2 : Nat) ∈ discoverItems regRootOnly docNestedFocusable :=
  c3_amended_focusable_descendants_included regRootOnly docNestedFocusable
    (.mk 2 none true []) [.mk 1 none true [.mk 2 none true []]]
    (InTree.step (InTree.child (by simp [docNestedFocusable, DNode.children]))
      (by simp [DNode.children]))
    rfl
    (by
      intro a ha
      rcases List.mem_cons.mp ha with h | h
      · subst h
        exact ⟨rfl, by simp [DNode.fg]⟩
      · simp at h)

end SFP
